import Mathlib

/-!
# Header capture and download logic of `src/main/libcurl.c`

A shallow embedding of the two static objects and the four functions of the
file that carry its behaviour:

* `static char headers[100][2048]` and `static int used`,
* `rcvHeaders`, `rcvData`,
* `do_curlGetHeaders`, `do_curlDownload`.

Memory model.  `headers` is one C object of `100 * 2048 = 204800` bytes; C lays
the rows of a two-dimensional array out contiguously, so `headers[i][j]` is the
byte at offset `i * 2048 + j` from the start of the object.  The embedding keeps
the bytes in a total map from offsets to byte values, so that a store the
program makes at an index outside a row is recorded at the offset the index
expression denotes.

Offsets from 204800 on are outside the object.  A store there is undefined
behaviour in C: what it overwrites depends on the build (it can be `used`
itself).  The embedding records such a store in the same map and keeps `used`
apart, which says what the program writes and where, and no more; `Store.inside`
says that a store is inside the object, and a statement about what a fetch
returns for all inputs is made only for runs all of whose stores are inside.
-/

namespace Libcurl

/-! ## Static storage -/

/-- Byte memory addressed by the offset from `&headers[0][0]`; the value `0` is `'\0'`.
The object `headers` is the offsets below `100 * 2048`; the offsets from there on
stand for whatever the build places after it. -/
abbrev Mem := Nat → Nat

/-- Offset of `headers[i][j]` in the object `headers`, whose rows are 2048 bytes wide. -/
def addr (i j : Nat) : Nat := i * 2048 + j

/-- The two file-scope statics: `static char headers[100][2048]; static int used;`.
`used` starts at 0 and is only ever assigned 0 or incremented, so it is never
negative.  `used` is kept apart from `headers`: a store outside the object does
not change it here, while on a real build it may. -/
structure State where
  headers : Mem
  used : Nat

/-- One byte store `headers[slot][idx] = val`. -/
structure Store where
  slot : Nat
  idx : Nat
  val : Nat
deriving DecidableEq, Repr

/-- Effect of one byte store on memory. -/
def Store.apply (m : Mem) (w : Store) : Mem :=
  fun a => if a = addr w.slot w.idx then w.val else m a

/-- Effect of a sequence of byte stores, in program order. -/
def applyStores (m : Mem) (ws : List Store) : Mem := ws.foldl Store.apply m

/-- Modulus of `size_t` arithmetic, `2^64`. -/
def SIZE_MOD : Nat := 2 ^ 64

/-- The stores made by the C library call `strncpy(headers[slot] + i, d + i, n)`:
bytes of `d` are copied until `n` bytes are written or a `'\0'` was copied; in the
latter case the rest of the `n` bytes is filled with `'\0'`. -/
def strncpyFrom (slot : Nat) (d : Nat → Nat) (i : Nat) : Nat → List Store
  | 0 => []
  | n + 1 =>
    if d i = 0 then (List.range (n + 1)).map (fun k => ⟨slot, i + k, 0⟩)
    else ⟨slot, i, d i⟩ :: strncpyFrom slot d (i + 1) n

/-- The stores made by `strncpy(headers[slot], d, n)`. -/
def strncpy (slot : Nat) (d : Nat → Nat) (n : Nat) : List Store := strncpyFrom slot d 0 n

/-! ## The two transport callbacks -/

/-- The header callback.
```
size_t result = size * nmemb, res = result > 2048 ? 2048 : result;
if(used > 100) return result;
strncpy(headers[used], d, res);
headers[used][res] = '\0';
used++;
return result;
```
Returns the C return value, the new statics, and the byte stores the call made
(in program order). -/
def rcvHeaders (st : State) (buffer : Nat → Nat) (size nmemb : Nat) : Nat × State × List Store :=
  let result := size * nmemb % SIZE_MOD
  let res := if result > 2048 then 2048 else result
  if st.used > 100 then (result, st, [])
  else
    let ws := strncpy st.used buffer res ++ [⟨st.used, res, 0⟩]
    (result, { headers := applyStores st.headers ws, used := st.used + 1 }, ws)

/-- The body callback of the header fetch: `return size * nmemb;`.  It touches
neither `headers` nor `used`. -/
def rcvData (st : State) (_buffer : Nat → Nat) (size nmemb : Nat) : Nat × State :=
  (size * nmemb % SIZE_MOD, st)

/-- One header line as the transport hands it to the header callback. -/
structure HeaderLine where
  buffer : Nat → Nat
  size : Nat
  nmemb : Nat

/-- Length in bytes of a delivered line, `size * nmemb` in `size_t` arithmetic. -/
def HeaderLine.len (l : HeaderLine) : Nat := l.size * l.nmemb % SIZE_MOD

/-- The first `n` bytes of a delivered line. -/
def HeaderLine.take (l : HeaderLine) (n : Nat) : List Nat := (List.range n).map l.buffer

/-- A line has no embedded NUL when none of its `len` bytes is `'\0'`. -/
def HeaderLine.noNul (l : HeaderLine) : Prop := ∀ j, j < l.len → l.buffer j ≠ 0

/-- The transport delivering header lines to `rcvHeaders`, one call per line, in order. -/
def deliver (st : State) : List HeaderLine → State
  | [] => st
  | l :: ls => deliver (rcvHeaders st l.buffer l.size l.nmemb).2.1 ls

/-- R strings hold at most `INT_MAX` bytes; `mkChar` fails on a longer C string. -/
def STR_FUEL : Nat := 2147483648

/-- The C string starting at offset `a`: the bytes up to the first `'\0'`.
`none` when no `'\0'` is found within `fuel` bytes. -/
def cstr (m : Mem) (a : Nat) : Nat → Option (List Nat)
  | 0 => none
  | fuel + 1 =>
    if m a = 0 then some []
    else (cstr m (a + 1) fuel).map (fun s => m a :: s)

/-- The call `mkChar(headers[i])`: the string read from the start of row `i`. -/
def mkChar (m : Mem) (i : Nat) : Option (List Nat) := cstr m (addr i 0) STR_FUEL

/-- The lines built by `for (int i = 0; i < used; i++) SET_STRING_ELT(ans, i, mkChar(headers[i]));`
on a vector allocated with `allocVector(STRSXP, used)`. -/
def readBack (st : State) : List (Option (List Nat)) :=
  (List.range st.used).map (fun i => mkChar st.headers i)

/-! ## Host values and services

The R runtime and libcurl are external to `libcurl.c`.  An R value is
represented by what the file observes of it; the services the file calls are
fields of `Host`. -/

/-- An R value as `libcurl.c` observes it: `isString(x)`, `length(x)`,
`STRING_ELT(x, i)` and `asLogical(x)`. -/
structure SEXP where
  isString : Bool
  length : Nat
  STRING_ELT : Nat → String
  asLogical : Int

/-- The value `NA_LOGICAL` (`INT_MIN`). -/
def NA_LOGICAL : Int := -2147483648

/-- The value `R_NilValue`: not a string, of length 0. -/
def R_NilValue : SEXP := ⟨false, 0, fun _ => "", NA_LOGICAL⟩

/-- The `CAR` of an argument list; `CAR(R_NilValue)` is `R_NilValue`. -/
def CAR (args : List SEXP) : SEXP := args.headD R_NilValue

/-- The `CDR` of an argument list. -/
def CDR (args : List SEXP) : List SEXP := args.tail

/-- The `CADR` of an argument list, `CAR(CDR(args))`. -/
def CADR (args : List SEXP) : SEXP := CAR (CDR args)

/-- The `CADDR` of an argument list, `CAR(CDR(CDR(args)))`. -/
def CADDR (args : List SEXP) : SEXP := CAR (CDR (CDR args))

/-- Options set on the easy handle with `curl_easy_setopt`. -/
inductive CurlOpt where
  | URL (url : String)
  | NOPROGRESS (v : Int)
  | NOBODY (v : Int)
  | HEADER (v : Int)
  | HEADERFUNCTION_rcvHeaders
  | WRITEHEADER_headers
  | WRITEFUNCTION_rcvData
  | USERAGENT (ua : String)
  | FOLLOWLOCATION (v : Int)
  | MAXREDIRS (v : Int)
  | ERRORBUFFER
  | TCP_KEEPALIVE (v : Int)
  | HTTPHEADER (slist : List String)
  | WRITEDATA (out : Nat)
deriving DecidableEq, Repr

/-- The observable actions of `do_curlDownload`, in program order. -/
inductive Event where
  | warning (msg : String)
  | curl_easy_init
  | curl_easy_setopt (o : CurlOpt)
  | curl_slist_append (s : String)
  | R_fopen (file mode : String)
  | REprintf (msg : String)
  | R_Busy (which : Int)
  | curl_easy_perform
  | curl_easy_cleanup
  | curl_slist_free_all
  | fclose
deriving DecidableEq, Repr

/-- The ways a call ends in R's non-returning `error(...)`. -/
inductive RError where
  | invalidArgument (name : String)
  | cannotOpenDestfile (file reason : String)
  | libcurlError (msg : String)
  | libcurlErrorCode (code : Nat) (errbuf : String)
  | stringTooLong
deriving DecidableEq, Repr

/-- What one `curl_easy_perform` does as seen by the file: the header lines it
hands to the header callback, the `CURLcode` it returns (`CURLE_OK` is 0), the
error buffer text and the response code. -/
structure Transfer where
  lines : List HeaderLine
  ret : Nat
  errbuf : String
  http_code : Int

/-- The services of the R runtime, the C library and libcurl that the file calls. -/
structure Host where
  translateChar : String → String
  R_ExpandFileName : String → String
  /-- The opened stream, or on `NULL` the text of `strerror(errno)`. -/
  R_fopen : String → String → Except String Nat
  /-- The transfer made for a handle with the given options. -/
  curl_easy_perform : List CurlOpt → Transfer
  curl_easy_strerror : Nat → String

/-- The C cast `(int)http_code` of a `long`. -/
def toInt32 (c : Int) : Int := (c + 2147483648) % 4294967296 - 2147483648

/-- Collects the strings of a vector; `none` if building one of them failed. -/
def allSome : List (Option (List Nat)) → Option (List (List Nat))
  | [] => some []
  | none :: _ => none
  | some s :: rest => (allSome rest).map (fun r => s :: r)

/-! ## `do_curlGetHeaders` -/

/-- The options `do_curlGetHeaders` sets on its handle, in program order. -/
def getHeadersOpts (url ua : String) (redirect : Int) : List CurlOpt :=
  [.URL url, .NOPROGRESS 1, .NOBODY 1, .HEADER 1, .HEADERFUNCTION_rcvHeaders,
    .WRITEHEADER_headers, .WRITEFUNCTION_rcvData, .USERAGENT ua]
  ++ (if redirect ≠ 0 then [.FOLLOWLOCATION 1] else [])
  ++ [.MAXREDIRS 50, .ERRORBUFFER]

/-- The header fetch (the `HAVE_CURL_CURL_H` branch), after `checkArity`.
Returns the value or the error the call ends with, and the statics it leaves. -/
def do_curlGetHeaders (host : Host) (args : List SEXP) (st : State) :
    Except RError (List (List Nat) × Int) × State :=
  if !(CAR args).isString || (CAR args).length != 1 then
    (.error (.invalidArgument "url"), st)
  else
    let url := host.translateChar ((CAR args).STRING_ELT 0)
    let st : State := { headers := st.headers, used := 0 }
    let redirect := (CADDR args).asLogical
    if redirect = NA_LOGICAL then (.error (.invalidArgument "redirect"), st)
    else
      let ua := host.translateChar ((CADR args).STRING_ELT 0)
      let tr := host.curl_easy_perform (getHeadersOpts url ua redirect)
      let st := deliver st tr.lines
      if tr.ret ≠ 0 then (.error (.libcurlErrorCode tr.ret tr.errbuf), st)
      else
        match allSome (readBack st) with
        | none => (.error .stringTooLong, st)
        | some ans => (.ok (ans, toInt32 tr.http_code), st)

/-- The transfer `do_curlGetHeaders` performs for the given arguments. -/
def headerTransfer (host : Host) (args : List SEXP) : Transfer :=
  host.curl_easy_perform
    (getHeadersOpts (host.translateChar ((CAR args).STRING_ELT 0))
      (host.translateChar ((CADR args).STRING_ELT 0)) (CADDR args).asLogical)

/-! ## `do_curlDownload` -/

/-- The options set on the handle so far. -/
def optsOf (t : List Event) : List CurlOpt :=
  t.filterMap (fun e => match e with
    | .curl_easy_setopt o => some o
    | _ => none)

/-- Lines 164-192 of `do_curlDownload`, the part after the argument checks.
`t` holds the actions performed so far (the warnings), `args` the argument list
as line 160 leaves it: `CAR(args)` is `cacheOK` and `CADR(args)` the user agent.
`error(...)` does not return: nothing is performed after it. -/
def downloadTransfer (host : Host) (t : List Event) (url file mode : String)
    (quiet cacheOK : Int) (args : List SEXP) : List Event × Except RError Int :=
  let t := t ++ [.curl_easy_init, .curl_easy_setopt (.URL url)]
    ++ (if quiet = 0 then [.curl_easy_setopt (.NOPROGRESS 0)] else [])
  let ua := host.translateChar ((CADR args).STRING_ELT 0)
  let t := t ++ [.curl_easy_setopt (.USERAGENT ua), .curl_easy_setopt (.FOLLOWLOCATION 1),
    .curl_easy_setopt (.MAXREDIRS 50), .curl_easy_setopt (.TCP_KEEPALIVE 1)]
  let t := t ++
    (if cacheOK = 0 then
      [.curl_slist_append "Pragma: no-cache",
       .curl_easy_setopt (.HTTPHEADER ["Pragma: no-cache"])]
     else [])
  let t := t ++ [.curl_easy_setopt (.HEADER 0), .R_fopen (host.R_ExpandFileName file) mode]
  match host.R_fopen (host.R_ExpandFileName file) mode with
  | .error reason => (t, .error (.cannotOpenDestfile file reason))
  | .ok out =>
    let t := t ++ [.curl_easy_setopt (.WRITEDATA out)]
      ++ (if quiet = 0 then [.REprintf ("trying URL '" ++ url ++ "'\n")] else [])
      ++ [.R_Busy 1]
    let ret := (host.curl_easy_perform (optsOf t)).ret
    let t := t ++ [.curl_easy_perform, .R_Busy 0]
    if ret ≠ 0 then (t, .error (.libcurlError (host.curl_easy_strerror ret)))
    else
      (t ++ [.curl_easy_cleanup]
        ++ (if cacheOK = 0 then [.curl_slist_free_all] else [])
        ++ [.fclose], .ok 0)

/-- The download (the `HAVE_CURL_CURL_H` branch), after `checkArity`: the argument
checks of lines 141-162, then `downloadTransfer`.  Returns the actions
performed, in program order, and the value or the error the call ends with. -/
def do_curlDownload (host : Host) (args : List SEXP) : List Event × Except RError Int :=
  let scmd := CAR args
  let args := CDR args
  if !scmd.isString || scmd.length < 1 then ([], .error (.invalidArgument "url"))
  else
    let t : List Event :=
      if scmd.length > 1 then [.warning "only first element of 'url' argument used"] else []
    let url := scmd.STRING_ELT 0
    let sfile := CAR args
    let args := CDR args
    if !sfile.isString || sfile.length < 1 then (t, .error (.invalidArgument "destfile"))
    else
      let t := t ++
        (if sfile.length > 1 then [.warning "only first element of 'destfile' argument used"]
         else [])
      let file := host.translateChar (sfile.STRING_ELT 0)
      let quiet := (CAR args).asLogical
      let args := CDR args
      if quiet = NA_LOGICAL then (t, .error (.invalidArgument "quiet"))
      else
        let smode := CAR args
        let args := CDR args
        if !smode.isString || smode.length != 1 then (t, .error (.invalidArgument "mode"))
        else
          let mode := smode.STRING_ELT 0
          let cacheOK := (CAR args).asLogical
          if cacheOK = NA_LOGICAL then (t, .error (.invalidArgument "cacheOK"))
          else downloadTransfer host t url file mode quiet cacheOK args

/-! ## Names for the arguments of a download and the checks on them -/

/-- The `url` argument, first of the list. -/
def argUrl (args : List SEXP) : SEXP := CAR args

/-- The `destfile` argument, second of the list. -/
def argDestfile (args : List SEXP) : SEXP := CAR (CDR args)

/-- The value `asLogical` gives for the `quiet` argument, third of the list. -/
def argQuiet (args : List SEXP) : Int := (CAR (CDR (CDR args))).asLogical

/-- The `mode` argument, fourth of the list. -/
def argMode (args : List SEXP) : SEXP := CAR (CDR (CDR (CDR args)))

/-- The value `asLogical` gives for the `cacheOK` argument, fifth of the list. -/
def argCacheOK (args : List SEXP) : Int := (CAR (CDR (CDR (CDR (CDR args))))).asLogical

/-- The argument a download is said to reject, with the checks taken in the
order url, destfile, quiet, cacheOK, mode. -/
def claimedInvalid (args : List SEXP) : Option String :=
  if !(argUrl args).isString || (argUrl args).length < 1 then some "url"
  else if !(argDestfile args).isString || (argDestfile args).length < 1 then some "destfile"
  else if argQuiet args = NA_LOGICAL then some "quiet"
  else if argCacheOK args = NA_LOGICAL then some "cacheOK"
  else if !(argMode args).isString || (argMode args).length != 1 then some "mode"
  else none

/-- The argument a download rejects, with the checks taken in the order
url, destfile, quiet, mode, cacheOK. -/
def firstInvalid (args : List SEXP) : Option String :=
  if !(argUrl args).isString || (argUrl args).length < 1 then some "url"
  else if !(argDestfile args).isString || (argDestfile args).length < 1 then some "destfile"
  else if argQuiet args = NA_LOGICAL then some "quiet"
  else if !(argMode args).isString || (argMode args).length != 1 then some "mode"
  else if argCacheOK args = NA_LOGICAL then some "cacheOK"
  else none

/-! ## Number of bytes copied, and the strings read back -/

/-- The number of bytes `rcvHeaders` copies from a line: `result > 2048 ? 2048 : result`. -/
def HeaderLine.res (l : HeaderLine) : Nat := if l.len > 2048 then 2048 else l.len

/-- The strings read back after the lines were stored in consecutive rows: a line
shorter than 2048 bytes is read back whole; one of 2048 bytes or more fills its
row, its terminator falls on the first byte of the next row, and the string read
from its row runs on into what the next row holds. -/
def expected : List HeaderLine → List (List Nat)
  | [] => []
  | l :: ls =>
    (l.take l.res ++ (if l.res = 2048 then (expected ls).headD [] else [])) :: expected ls

/-! ## Concrete inputs -/

/-- A string vector with the given elements. -/
def strVec (l : List String) : SEXP := ⟨true, l.length, fun i => l.getD i "", NA_LOGICAL⟩

/-- A logical vector of length one holding `v`. -/
def lglVec (v : Int) : SEXP := ⟨false, 1, fun _ => "", v⟩

/-- A header line of `n` bytes, each the letter `a`. -/
def lineA (n : Nat) : HeaderLine := ⟨fun _ => 97, 1, n⟩

/-- A header line of one byte, the letter `b`. -/
def lineB : HeaderLine := ⟨fun _ => 98, 1, 1⟩

/-- A host whose transfer succeeds with status 200 and delivers the given header
lines, and whose `fopen` succeeds. -/
def hostDelivering (lines : List HeaderLine) : Host :=
  ⟨id, id, fun _ _ => .ok 3, fun _ => ⟨lines, 0, "", 200⟩, fun _ => ""⟩

/-- Arguments of a header fetch: `url`, user agent, `redirect = TRUE`. -/
def headerArgs : List SEXP :=
  [strVec ["http://example.test/ok"], strVec ["test-agent"], lglVec 1]

/-- A host whose `fopen` succeeds and whose transfer returns the given `CURLcode`. -/
def hostReturning (ret : Nat) : Host :=
  ⟨id, id, fun _ _ => .ok 3, fun _ => ⟨[], ret, "", 0⟩,
    fun c => if c = 6 then "Couldn't resolve host name" else "No error"⟩

/-- A host whose `fopen` fails with the given reason. -/
def hostNoOpen (reason : String) : Host :=
  ⟨id, id, fun _ _ => .error reason, fun _ => ⟨[], 0, "", 200⟩, fun _ => "No error"⟩

/-- Arguments of a download: `url`, `destfile`, `quiet`, `mode`, `cacheOK`, user agent. -/
def downloadArgs (quiet cacheOK : Int) : List SEXP :=
  [strVec ["http://example.test/file"], strVec ["/tmp/out.bin"], lglVec quiet, strVec ["wb"],
    lglVec cacheOK, strVec ["agent"]]

/-- Download arguments with two values for `url` and two for `destfile`. -/
def multiArgs : List SEXP :=
  [strVec ["http://example.test/a", "http://example.test/b"], strVec ["/tmp/a", "/tmp/b"],
    lglVec 1, strVec ["wb"], lglVec 0, strVec ["agent"]]

/-- Download arguments whose `mode` has two values and whose `cacheOK` is `NA`. -/
def badModeNaCache : List SEXP :=
  [strVec ["http://example.test/file"], strVec ["/tmp/out.bin"], lglVec 1, strVec ["w", "b"],
    lglVec NA_LOGICAL, strVec ["agent"]]

/-- The warnings a download emits for a `url` or `destfile` of more than one value. -/
def warningsOf (args : List SEXP) : List Event :=
  (if (argUrl args).length > 1 then [.warning "only first element of 'url' argument used"]
   else [])
  ++ (if (argDestfile args).length > 1 then
        [.warning "only first element of 'destfile' argument used"]
      else [])

/-- The run of `downloadTransfer` a download with valid arguments continues with. -/
def transferOf (host : Host) (args : List SEXP) : List Event × Except RError Int :=
  downloadTransfer host (warningsOf args) ((argUrl args).STRING_ELT 0)
    (host.translateChar ((argDestfile args).STRING_ELT 0)) ((argMode args).STRING_ELT 0)
    (argQuiet args) (argCacheOK args) (CDR (CDR (CDR (CDR args))))

/-! ## Memory and `strncpy` -/

theorem applyStores_append (m : Mem) (xs ys : List Store) :
    applyStores m (xs ++ ys) = applyStores (applyStores m xs) ys := by
  simp [applyStores, List.foldl_append]

theorem applyStores_frame (ws : List Store) (m : Mem) (a : Nat)
    (h : ∀ w ∈ ws, addr w.slot w.idx ≠ a) : applyStores m ws a = m a := by
  induction ws generalizing m with
  | nil => rfl
  | cons w ws ih =>
    have h1 : applyStores m (w :: ws) = applyStores (Store.apply m w) ws := rfl
    rw [h1, ih _ (fun v hv => h v (List.mem_cons_of_mem _ hv))]
    have h2 := h w (List.mem_cons_self _ _)
    simp only [Store.apply]
    rw [if_neg (fun e => h2 e.symm)]

/-- Every store of `strncpy` goes to the given row, at an index in `[i, i + n)`. -/
theorem strncpyFrom_mem (slot : Nat) (d : Nat → Nat) (n i : Nat) (w : Store)
    (h : w ∈ strncpyFrom slot d i n) : w.slot = slot ∧ i ≤ w.idx ∧ w.idx < i + n := by
  induction n generalizing i with
  | zero => simp [strncpyFrom] at h
  | succ n ih =>
    unfold strncpyFrom at h
    split at h
    · simp only [List.mem_map, List.mem_range] at h
      obtain ⟨k, hk, rfl⟩ := h
      exact ⟨rfl, by simp, by simp; omega⟩
    · rcases List.mem_cons.mp h with rfl | h
      · exact ⟨rfl, le_refl _, by simp⟩
      · have := ih (i + 1) h
        exact ⟨this.1, by omega, by omega⟩

/-- Without a NUL among the bytes copied, `strncpy` stores them one for one. -/
theorem strncpyFrom_noNul (slot : Nat) (d : Nat → Nat) (n i : Nat)
    (h : ∀ j, j < n → d (i + j) ≠ 0) :
    strncpyFrom slot d i n = (List.range n).map (fun k => ⟨slot, i + k, d (i + k)⟩) := by
  induction n generalizing i with
  | zero => rfl
  | succ n ih =>
    unfold strncpyFrom
    have h0 : d i ≠ 0 := by simpa using h 0 (Nat.succ_pos _)
    rw [if_neg h0, ih (i + 1) (fun j hj => by
      have := h (j + 1) (by omega)
      rwa [show i + 1 + j = i + (j + 1) by omega]), List.range_succ_eq_map]
    simp only [List.map_cons, List.map_map, Nat.add_zero]
    congr 1
    apply List.map_congr_left
    intro k _
    simp only [Function.comp, Nat.succ_eq_add_one]
    rw [show i + 1 + k = i + (k + 1) by omega]

theorem applyStores_range (slot i : Nat) (f : Nat → Nat) (n : Nat) (m : Mem) (j : Nat)
    (hj : j < n) :
    applyStores m ((List.range n).map (fun k => ⟨slot, i + k, f k⟩)) (addr slot (i + j)) = f j := by
  induction n with
  | zero => omega
  | succ n ih =>
    rw [List.range_succ, List.map_append, applyStores_append]
    simp only [List.map_cons, List.map_nil, applyStores, List.foldl_cons, List.foldl_nil,
      Store.apply]
    by_cases hjn : j = n
    · subst hjn; simp
    · have : addr slot (i + j) ≠ addr slot (i + n) := by unfold addr; omega
      rw [if_neg this]
      exact ih (by omega)

/-! ## One call of `rcvHeaders`, and a run of them -/

theorem res_le (l : HeaderLine) : l.res ≤ 2048 := by
  unfold HeaderLine.res; split <;> omega

theorem res_le_len (l : HeaderLine) : l.res ≤ l.len := by
  unfold HeaderLine.res; split <;> omega

theorem rcvHeaders_result (st : State) (b : Nat → Nat) (s n : Nat) :
    (rcvHeaders st b s n).1 = s * n % SIZE_MOD := by
  unfold rcvHeaders; dsimp only; split <;> rfl

theorem rcvHeaders_used (st : State) (b : Nat → Nat) (s n : Nat) :
    (rcvHeaders st b s n).2.1.used = if st.used > 100 then st.used else st.used + 1 := by
  unfold rcvHeaders; dsimp only; split <;> rfl

theorem rcvHeaders_full (st : State) (b : Nat → Nat) (s n : Nat) (h : st.used > 100) :
    (rcvHeaders st b s n).2.1 = st := by
  unfold rcvHeaders; dsimp only; rw [if_pos h]

theorem rcvHeaders_stores (st : State) (l : HeaderLine) (h : st.used ≤ 100) :
    (rcvHeaders st l.buffer l.size l.nmemb).2.2
      = strncpy st.used l.buffer l.res ++ [⟨st.used, l.res, 0⟩] := by
  unfold rcvHeaders; dsimp only; rw [if_neg (by omega)]; rfl

theorem rcvHeaders_headers (st : State) (l : HeaderLine) (h : st.used ≤ 100) :
    (rcvHeaders st l.buffer l.size l.nmemb).2.1.headers
      = applyStores st.headers (strncpy st.used l.buffer l.res ++ [⟨st.used, l.res, 0⟩]) := by
  unfold rcvHeaders; dsimp only; rw [if_neg (by omega)]; rfl

/-- One call leaves every byte outside `headers[used][0 .. res]` as it was. -/
theorem rcvHeaders_frame (st : State) (l : HeaderLine) (a : Nat)
    (ha : a < addr st.used 0 ∨ addr st.used l.res < a) :
    (rcvHeaders st l.buffer l.size l.nmemb).2.1.headers a = st.headers a := by
  by_cases h : st.used ≤ 100
  · rw [rcvHeaders_headers st l h]
    apply applyStores_frame
    intro w hw
    rcases List.mem_append.mp hw with hw | hw
    · have := strncpyFrom_mem _ _ _ _ _ hw
      unfold addr at ha ⊢
      rw [this.1]; omega
    · simp only [List.mem_singleton] at hw
      subst hw
      unfold addr at ha ⊢
      dsimp only; omega
  · rw [rcvHeaders_full st _ _ _ (by omega)]

theorem rcvHeaders_term (st : State) (l : HeaderLine) (h : st.used ≤ 100) :
    (rcvHeaders st l.buffer l.size l.nmemb).2.1.headers (addr st.used l.res) = 0 := by
  rw [rcvHeaders_headers st l h, applyStores_append]
  simp [applyStores, Store.apply]

theorem rcvHeaders_bytes (st : State) (l : HeaderLine) (h : st.used ≤ 100) (hn : l.noNul)
    (j : Nat) (hj : j < l.res) :
    (rcvHeaders st l.buffer l.size l.nmemb).2.1.headers (addr st.used j) = l.buffer j := by
  rw [rcvHeaders_headers st l h, applyStores_append]
  have hne : addr st.used j ≠ addr st.used l.res := by unfold addr; omega
  simp only [applyStores, List.foldl_cons, List.foldl_nil, Store.apply]
  rw [if_neg hne]
  have hcopy := strncpyFrom_noNul st.used l.buffer l.res 0 (fun k hk => by
    rw [Nat.zero_add]; exact hn k (lt_of_lt_of_le hk (res_le_len l)))
  unfold strncpy
  rw [hcopy]
  have := applyStores_range st.used 0 (fun k => l.buffer (0 + k)) l.res st.headers j hj
  simpa [applyStores] using this

theorem deliver_full (ls : List HeaderLine) (st : State) (h : st.used > 100) :
    deliver st ls = st := by
  induction ls with
  | nil => rfl
  | cons l ls ih => simp only [deliver]; rw [rcvHeaders_full st _ _ _ h]; exact ih

theorem deliver_used (ls : List HeaderLine) (st : State) (h : st.used ≤ 101) :
    (deliver st ls).used = min (st.used + ls.length) 101 := by
  induction ls generalizing st with
  | nil => simp [deliver]; omega
  | cons l ls ih =>
    simp only [deliver, List.length_cons]
    have hu := rcvHeaders_used st l.buffer l.size l.nmemb
    rw [ih _ (by rw [hu]; split <;> omega), hu]
    split <;> omega

/-- Delivering lines leaves every byte below the current row as it was. -/
theorem deliver_frame (ls : List HeaderLine) (st : State) (a : Nat) (ha : a < addr st.used 0) :
    (deliver st ls).headers a = st.headers a := by
  induction ls generalizing st with
  | nil => rfl
  | cons l ls ih =>
    simp only [deliver]
    by_cases h : st.used ≤ 100
    · have hu := rcvHeaders_used st l.buffer l.size l.nmemb
      rw [if_neg (by omega)] at hu
      rw [ih _ (by rw [hu]; unfold addr at ha ⊢; omega)]
      exact rcvHeaders_frame st l a (Or.inl ha)
    · rw [rcvHeaders_full st _ _ _ (by omega)]
      exact ih st ha

/-! ## Reading strings back -/

theorem expected_length (ls : List HeaderLine) : (expected ls).length = ls.length := by
  induction ls with
  | nil => rfl
  | cons l ls ih => simp [expected, ih]

/-- Lines shorter than 2048 bytes read back whole, each from its own row. -/
theorem expected_of_short (ls : List HeaderLine) (h : ∀ l ∈ ls, l.len < 2048) :
    expected ls = ls.map (fun l => l.take l.len) := by
  induction ls with
  | nil => rfl
  | cons l ls ih =>
    have hl := h l (List.mem_cons_self _ _)
    have hr : l.res = l.len := by unfold HeaderLine.res; rw [if_neg (by omega)]
    simp only [expected, List.map_cons, hr]
    rw [if_neg (by omega), List.append_nil, ih (fun x hx => h x (List.mem_cons_of_mem _ hx))]

theorem take_length (l : HeaderLine) (n : Nat) : (l.take n).length = n := by
  simp [HeaderLine.take]

theorem cstr_zero (m : Mem) (a f : Nat) (h : m a = 0) (hf : 0 < f) : cstr m a f = some [] := by
  cases f with
  | zero => omega
  | succ f => simp [cstr, h]

theorem cstr_append (s : List Nat) (m : Mem) (a f : Nat)
    (h : ∀ j, j < s.length → m (a + j) ≠ 0 ∧ s[j]? = some (m (a + j))) :
    cstr m a (s.length + f) = (cstr m (a + s.length) f).map (fun r => s ++ r) := by
  induction s generalizing a with
  | nil => simp
  | cons x s ih =>
    have h0 := h 0 (by simp)
    simp only [Nat.add_zero, List.getElem?_cons_zero, Option.some.injEq] at h0
    have hs : ∀ j, j < s.length → m (a + 1 + j) ≠ 0 ∧ s[j]? = some (m (a + 1 + j)) := by
      intro j hj
      have := h (j + 1) (by simp; omega)
      rw [show a + 1 + j = a + (j + 1) by omega]
      simpa using this
    rw [show (x :: s).length + f = (s.length + f) + 1 by simp; omega]
    simp only [cstr]
    rw [if_neg h0.1, ih (a + 1) hs, show a + 1 + s.length = a + (x :: s).length by simp; omega,
      Option.map_map, h0.2]
    rfl

theorem take_getElem_opt (l : HeaderLine) (n j : Nat) (hj : j < n) :
    (l.take n)[j]? = some (l.buffer j) := by
  simp [HeaderLine.take, List.getElem?_range hj]

/-- The string read from the row of the first of the delivered lines. -/
theorem cstr_deliver (ls : List HeaderLine) (l : HeaderLine) (st : State)
    (hu : st.used + (ls.length + 1) ≤ 101) (hn : ∀ x ∈ l :: ls, x.noNul)
    (fuel : Nat) (hf : 2048 * (ls.length + 1) < fuel) :
    cstr (deliver st (l :: ls)).headers (addr st.used 0) fuel
      = some ((expected (l :: ls)).headD []) := by
  induction ls generalizing l st fuel with
  | nil =>
    have hl : l.noNul := hn l (List.mem_cons_self _ _)
    have h100 : st.used ≤ 100 := by omega
    simp only [deliver, expected, List.headD_cons, List.headD_nil, ite_self, List.append_nil]
    have hres := res_le l
    obtain ⟨f, rfl⟩ : ∃ f, fuel = (l.take l.res).length + f :=
      ⟨fuel - l.res, by rw [take_length]; simp at hf; omega⟩
    rw [cstr_append]
    · rw [take_length, cstr_zero _ _ _ ?_ (by rw [take_length] at hf; simp at hf; omega)]
      · simp
      · have ha : addr st.used 0 + l.res = addr st.used l.res := by unfold addr; omega
        rw [ha]; exact rcvHeaders_term st l h100
    · intro j hj
      rw [take_length] at hj
      have hb := rcvHeaders_bytes st l h100 hl j hj
      have ha : addr st.used 0 + j = addr st.used j := by unfold addr; omega
      rw [ha, hb, take_getElem_opt l _ _ hj]
      exact ⟨hl j (lt_of_lt_of_le hj (res_le_len l)), rfl⟩
  | cons l2 ls ih =>
    have hl : l.noNul := hn l (List.mem_cons_self _ _)
    have h100 : st.used ≤ 100 := by simp at hu; omega
    have hres := res_le l
    have hu1 := rcvHeaders_used st l.buffer l.size l.nmemb
    rw [if_neg (by omega)] at hu1
    simp only [List.length_cons] at hu hf
    obtain ⟨f, rfl⟩ : ∃ f, fuel = (l.take l.res).length + f :=
      ⟨fuel - l.res, by rw [take_length]; omega⟩
    rw [take_length] at hf
    have hrec := ih l2 (rcvHeaders st l.buffer l.size l.nmemb).2.1 (by rw [hu1]; omega)
      (fun x hx => hn x (List.mem_cons_of_mem _ hx))
    rw [show deliver st (l :: l2 :: ls)
        = deliver (rcvHeaders st l.buffer l.size l.nmemb).2.1 (l2 :: ls) from rfl]
    rw [cstr_append]
    · rw [take_length]
      by_cases h2048 : l.res = 2048
      · have ha : addr st.used 0 + l.res
            = addr (rcvHeaders st l.buffer l.size l.nmemb).2.1.used 0 := by
          rw [hu1]; unfold addr; omega
        rw [ha, hrec f (by omega)]
        simp [expected, h2048]
      · have hlt : l.res < 2048 := by omega
        have hz : (deliver (rcvHeaders st l.buffer l.size l.nmemb).2.1 (l2 :: ls)).headers
            (addr st.used 0 + l.res) = 0 := by
          rw [deliver_frame _ _ _ (by rw [hu1]; unfold addr; omega)]
          have ha : addr st.used 0 + l.res = addr st.used l.res := by unfold addr; omega
          rw [ha]; exact rcvHeaders_term st l h100
        rw [cstr_zero _ _ _ hz (by omega)]
        simp [expected, h2048]
    · intro j hj
      rw [take_length] at hj
      have ha : addr st.used 0 + j = addr st.used j := by unfold addr; omega
      rw [ha, deliver_frame _ _ _ (by rw [hu1]; unfold addr; omega),
        rcvHeaders_bytes st l h100 hl j hj, take_getElem_opt l _ _ hj]
      exact ⟨hl j (lt_of_lt_of_le hj (res_le_len l)), rfl⟩

theorem mkChar_deliver (ls : List HeaderLine) (st : State)
    (hu : st.used + ls.length ≤ 101) (hn : ∀ x ∈ ls, x.noNul) (k : Nat) (hk : k < ls.length) :
    mkChar (deliver st ls).headers (st.used + k) = some ((expected ls).getD k []) := by
  induction ls generalizing st k with
  | nil => simp at hk
  | cons l ls ih =>
    simp only [List.length_cons] at hu hk
    cases k with
    | zero =>
      have := cstr_deliver ls l st hu hn STR_FUEL (by unfold STR_FUEL; omega)
      simpa [mkChar, expected] using this
    | succ k =>
      have hu1 := rcvHeaders_used st l.buffer l.size l.nmemb
      rw [if_neg (by omega)] at hu1
      have := ih (rcvHeaders st l.buffer l.size l.nmemb).2.1 (by rw [hu1]; omega)
        (fun x hx => hn x (List.mem_cons_of_mem _ hx)) k (by omega)
      rw [hu1] at this
      rw [show st.used + (k + 1) = st.used + 1 + k by omega]
      simpa [deliver, expected] using this

/-- After a reset, at most 101 lines without NUL read back as `expected` says,
whatever the memory held before. -/
theorem readBack_deliver (ls : List HeaderLine) (m : Mem)
    (hu : ls.length ≤ 101) (hn : ∀ x ∈ ls, x.noNul) :
    readBack (deliver ⟨m, 0⟩ ls) = (expected ls).map some := by
  have hused : (deliver ⟨m, 0⟩ ls).used = ls.length := by
    rw [deliver_used _ _ (by simp)]; simp; omega
  apply List.ext_getElem
  · simp [readBack, hused, expected_length]
  · intro k h1 h2
    have hk : k < ls.length := by simpa [readBack, hused] using h1
    have := mkChar_deliver ls ⟨m, 0⟩ (by simp; omega) hn k hk
    simp only [Nat.zero_add] at this
    simp only [readBack, List.getElem_map, List.getElem_range, this]
    rw [List.getD_eq_getElem _ _ (by rw [expected_length]; exact hk)]

theorem allSome_map_some (xs : List (List Nat)) : allSome (xs.map some) = some xs := by
  induction xs with
  | nil => rfl
  | cons x xs ih => simp [allSome, ih]

/-- A header fetch with a valid `url` and `redirect`, whose transfer succeeds and
delivers at most 101 lines without NUL, returns `expected` of the lines. -/
theorem do_curlGetHeaders_ok (host : Host) (args : List SEXP) (st : State)
    (hurl : (CAR args).isString = true ∧ (CAR args).length = 1)
    (hred : (CADDR args).asLogical ≠ NA_LOGICAL)
    (hret : (headerTransfer host args).ret = 0)
    (hlen : (headerTransfer host args).lines.length ≤ 101)
    (hnul : ∀ l ∈ (headerTransfer host args).lines, l.noNul) :
    do_curlGetHeaders host args st
      = (.ok (expected (headerTransfer host args).lines,
              toInt32 (headerTransfer host args).http_code),
         deliver ⟨st.headers, 0⟩ (headerTransfer host args).lines) := by
  unfold headerTransfer at hret hlen hnul ⊢
  unfold do_curlGetHeaders
  simp only [hurl.1, hurl.2, hred, hret]
  simp only [Bool.not_true, bne_self_eq_false, Bool.or_self, Bool.false_eq_true, ↓reduceIte,
    ne_eq, not_true_eq_false]
  simp only [readBack_deliver _ _ hlen hnul, allSome_map_some]

/-! ## The concrete lines -/

theorem lineA_noNul (n : Nat) : (lineA n).noNul := by
  intro j _; simp [lineA]

theorem lineB_noNul : lineB.noNul := by
  intro j _; simp [lineB]

theorem lineA_res_2048 : (lineA 2048).res = 2048 := by
  norm_num [HeaderLine.res, HeaderLine.len, lineA, SIZE_MOD]

theorem lineA_res_3000 : (lineA 3000).res = 2048 := by
  norm_num [HeaderLine.res, HeaderLine.len, lineA, SIZE_MOD]

theorem lineA_len_3000 : (lineA 3000).len = 3000 := by
  norm_num [HeaderLine.len, lineA, SIZE_MOD]

theorem lineB_res : lineB.res = 1 := by
  norm_num [HeaderLine.res, HeaderLine.len, lineB, SIZE_MOD]

/-- The header fetch on the demonstration host, in closed form. -/
theorem getHeaders_hostDelivering (ls : List HeaderLine) (st : State)
    (hlen : ls.length ≤ 101) (hn : ∀ l ∈ ls, l.noNul) :
    do_curlGetHeaders (hostDelivering ls) headerArgs st
      = (.ok (expected ls, 200), deliver ⟨st.headers, 0⟩ ls) := by
  have h := do_curlGetHeaders_ok (hostDelivering ls) headerArgs st ⟨rfl, rfl⟩ (by decide) rfl
    hlen hn
  rw [h]
  rfl

/-! ## The download: argument checks and transfer -/

/-- A download either ends in the invalid-argument error of the first failing
check, or passes all five checks and continues with the transfer. -/
theorem do_curlDownload_cases (host : Host) (args : List SEXP) :
    (∃ name, firstInvalid args = some name ∧
        (do_curlDownload host args).2 = .error (.invalidArgument name)) ∨
      (firstInvalid args = none ∧ do_curlDownload host args = transferOf host args) := by
  unfold do_curlDownload firstInvalid transferOf warningsOf argUrl argDestfile argQuiet argMode
    argCacheOK
  dsimp only
  split_ifs <;> simp

theorem downloadTransfer_not_invalid (host : Host) (t : List Event) (url file mode : String)
    (quiet cacheOK : Int) (args : List SEXP) (name : String) :
    (downloadTransfer host t url file mode quiet cacheOK args).2
      ≠ .error (.invalidArgument name) := by
  unfold downloadTransfer
  dsimp only
  split
  · simp
  · split_ifs <;> simp

theorem do_curlDownload_of_valid (host : Host) (args : List SEXP)
    (hvalid : ∀ name, (do_curlDownload host args).2 ≠ .error (.invalidArgument name)) :
    do_curlDownload host args = transferOf host args := by
  rcases do_curlDownload_cases host args with ⟨name, _, h⟩ | ⟨_, h⟩
  · exact absurd h (hvalid name)
  · exact h

theorem warningsOf_warning (args : List SEXP) (e : Event) (h : e ∈ warningsOf args) :
    ∃ msg, e = Event.warning msg := by
  unfold warningsOf at h
  rcases List.mem_append.mp h with h | h <;> split_ifs at h <;> simp at h <;> exact ⟨_, h⟩

theorem mem_downloadTransfer_slist_append (host : Host) (t : List Event)
    (url file mode : String) (quiet cacheOK : Int) (args : List SEXP) (s : String)
    (ht : ∀ e ∈ t, ∃ msg, e = Event.warning msg) :
    Event.curl_slist_append s ∈ (downloadTransfer host t url file mode quiet cacheOK args).1
      ↔ cacheOK = 0 ∧ s = "Pragma: no-cache" := by
  have h1 : Event.curl_slist_append s ∉ t := fun hs => by
    obtain ⟨m, hm⟩ := ht _ hs; cases hm
  unfold downloadTransfer
  dsimp only
  split <;> split_ifs <;> simp [h1, *]

theorem mem_downloadTransfer_of_mem (host : Host) (t : List Event)
    (url file mode : String) (quiet cacheOK : Int) (args : List SEXP) (e : Event) (h : e ∈ t) :
    e ∈ (downloadTransfer host t url file mode quiet cacheOK args).1 := by
  unfold downloadTransfer
  dsimp only
  split <;> split_ifs <;> simp [h]

theorem downloadTransfer_uses_first (host : Host) (t : List Event)
    (url file mode : String) (quiet cacheOK : Int) (args : List SEXP) :
    Event.curl_easy_setopt (.URL url) ∈ (downloadTransfer host t url file mode quiet cacheOK args).1
      ∧ Event.R_fopen (host.R_ExpandFileName file) mode
          ∈ (downloadTransfer host t url file mode quiet cacheOK args).1 := by
  unfold downloadTransfer
  dsimp only
  split <;> split_ifs <;> simp

theorem downloadTransfer_open_failure (host : Host) (t : List Event)
    (url file mode : String) (quiet cacheOK : Int) (args : List SEXP) (reason : String)
    (ht : ∀ e ∈ t, ∃ msg, e = Event.warning msg)
    (hopen : host.R_fopen (host.R_ExpandFileName file) mode = .error reason) :
    (downloadTransfer host t url file mode quiet cacheOK args).2
        = .error (.cannotOpenDestfile file reason)
      ∧ Event.curl_easy_perform ∉ (downloadTransfer host t url file mode quiet cacheOK args).1
      ∧ (∀ which, Event.R_Busy which ∉ (downloadTransfer host t url file mode quiet cacheOK args).1)
      ∧ (∀ msg, Event.REprintf msg ∉ (downloadTransfer host t url file mode quiet cacheOK args).1) := by
  have h1 : Event.curl_easy_perform ∉ t := fun hs => by
    obtain ⟨m, hm⟩ := ht _ hs; cases hm
  have h2 : ∀ which, Event.R_Busy which ∉ t := fun _ hs => by
    obtain ⟨m, hm⟩ := ht _ hs; cases hm
  have h3 : ∀ msg, Event.REprintf msg ∉ t := fun _ hs => by
    obtain ⟨m, hm⟩ := ht _ hs; cases hm
  unfold downloadTransfer
  dsimp only
  rw [hopen]
  dsimp only
  split_ifs <;> simp [h1, h2, h3]

theorem downloadTransfer_failed_transfer (host : Host) (t : List Event)
    (url file mode : String) (quiet cacheOK : Int) (args : List SEXP) (out : Nat)
    (ht : ∀ e ∈ t, ∃ msg, e = Event.warning msg)
    (hopen : host.R_fopen (host.R_ExpandFileName file) mode = .ok out)
    (hfail : ∀ opts, (host.curl_easy_perform opts).ret ≠ 0) :
    (∃ ret, ret ≠ 0 ∧ (downloadTransfer host t url file mode quiet cacheOK args).2
        = .error (.libcurlError (host.curl_easy_strerror ret)))
      ∧ Event.curl_easy_perform ∈ (downloadTransfer host t url file mode quiet cacheOK args).1
      ∧ Event.curl_slist_free_all ∉ (downloadTransfer host t url file mode quiet cacheOK args).1 := by
  have h1 : Event.curl_slist_free_all ∉ t := fun hs => by
    obtain ⟨m, hm⟩ := ht _ hs; cases hm
  unfold downloadTransfer
  dsimp only
  rw [hopen]
  dsimp only
  simp only [hfail, ne_eq, not_false_eq_true, ↓reduceIte]
  refine ⟨⟨_, hfail _, rfl⟩, ?_, ?_⟩
  · simp
  · split_ifs <;> simp [h1]

/-! ## Stores inside and outside the object -/

/-- After a reset the stored count is the number of lines delivered, capped at 101. -/
theorem deliver_used_after_reset (m : Mem) (ls : List HeaderLine) :
    (deliver ⟨m, 0⟩ ls).used = min ls.length 101 := by
  rw [deliver_used _ _ (by simp)]; simp

/-- C1, evaluated at 101 one-byte header lines: the header fetch succeeds, leaves
`used = 101` and returns a vector of 101 strings, one more than the 100 rows of
`headers`; the guard of `rcvHeaders` is `used > 100`, so the 101st line is stored. -/
theorem getHeaders_101_lines_returns_101 (st : State) :
    (do_curlGetHeaders (hostDelivering (List.replicate 101 lineB)) headerArgs st).2.used = 101
      ∧ ∃ ans, (do_curlGetHeaders (hostDelivering (List.replicate 101 lineB)) headerArgs st).1
            = .ok (ans, 200) ∧ ans.length = 101 := by
  have h := getHeaders_hostDelivering (List.replicate 101 lineB) st (by simp)
    (fun l hl => by rw [List.eq_of_mem_replicate hl]; exact lineB_noNul)
  rw [h]
  refine ⟨?_, _, rfl, ?_⟩
  · rw [deliver_used_after_reset]; simp
  · rw [expected_length]; simp

/-- C2, evaluated at two reachable states.  Right after the reset a line of 2048
bytes makes `rcvHeaders` store its terminator at index 2048 of row 0, which is
the first byte of row 1.  After 100 stored lines `used` is 100 and the next line
is stored in row 100, outside the 100 rows. -/
theorem rcvHeaders_stores_outside_row (m : Mem) :
    (⟨0, 2048, 0⟩ ∈ (rcvHeaders ⟨m, 0⟩ (lineA 2048).buffer (lineA 2048).size
          (lineA 2048).nmemb).2.2
      ∧ (rcvHeaders ⟨m, 0⟩ (lineA 2048).buffer (lineA 2048).size
          (lineA 2048).nmemb).2.1.headers (addr 1 0) = 0)
    ∧ (deliver ⟨m, 0⟩ (List.replicate 100 lineB)).used = 100
    ∧ ⟨100, 1, 0⟩ ∈ (rcvHeaders (deliver ⟨m, 0⟩ (List.replicate 100 lineB)) lineB.buffer
          lineB.size lineB.nmemb).2.2 := by
  have hu : (deliver ⟨m, 0⟩ (List.replicate 100 lineB)).used = 100 := by
    rw [deliver_used_after_reset]; simp
  refine ⟨⟨?_, ?_⟩, hu, ?_⟩
  · rw [rcvHeaders_stores _ _ (by simp), lineA_res_2048]; simp
  · have h := rcvHeaders_term ⟨m, 0⟩ (lineA 2048) (by simp)
    rw [lineA_res_2048] at h
    have e : addr 1 0 = addr 0 2048 := by unfold addr; omega
    rw [e]; exact h
  · rw [rcvHeaders_stores _ _ (by omega), lineB_res, hu]; simp

/-- C3, evaluated at a 2048-byte line followed by a one-byte line: the first
string the header fetch returns has 2049 bytes.  The terminator of the first
line is stored at index 2048, on the first byte of the next row, and the next
line overwrites it. -/
theorem getHeaders_returns_2049_byte_line (st : State) :
    (do_curlGetHeaders (hostDelivering [lineA 2048, lineB]) headerArgs st).1
        = .ok ([(lineA 2048).take 2048 ++ lineB.take 1, lineB.take 1], 200)
      ∧ ((lineA 2048).take 2048 ++ lineB.take 1).length = 2049 := by
  constructor
  · rw [getHeaders_hostDelivering _ _ (by simp) (by
        intro l hl
        simp only [List.mem_cons, List.mem_singleton, List.not_mem_nil, or_false] at hl
        rcases hl with rfl | rfl
        · exact lineA_noNul _
        · exact lineB_noNul)]
    simp [expected, lineA_res_2048, lineB_res]
  · simp [take_length]

/-- C4: `rcvHeaders` returns `size * nmemb` (in `size_t` arithmetic) for every
buffer, size, nmemb and every state, stored or not; `rcvData` returns the same
and leaves the state as it was. -/
theorem callbacks_return_full_length (st : State) (buffer : Nat → Nat) (size nmemb : Nat) :
    (rcvHeaders st buffer size nmemb).1 = size * nmemb % SIZE_MOD
      ∧ (rcvData st buffer size nmemb).1 = size * nmemb % SIZE_MOD
      ∧ (rcvData st buffer size nmemb).2 = st :=
  ⟨rcvHeaders_result st buffer size nmemb, rfl, rfl⟩

/-- C5, evaluated at a 3000-byte line followed by a one-byte line, neither with a
NUL: the first returned string is the first 2048 bytes of the first line followed
by the byte of the second line, not the first `min(3000, 2048)` bytes alone. -/
theorem getHeaders_first_line_runs_on (st : State) :
    (lineA 3000).noNul ∧ lineB.noNul
      ∧ ∃ ans, (do_curlGetHeaders (hostDelivering [lineA 3000, lineB]) headerArgs st).1
          = .ok (ans, 200)
        ∧ ans[0]? = some ((lineA 3000).take 2048 ++ lineB.take 1)
        ∧ ans[0]? ≠ some ((lineA 3000).take (min (lineA 3000).len 2048)) := by
  refine ⟨lineA_noNul _, lineB_noNul, ?_⟩
  rw [getHeaders_hostDelivering _ _ (by simp) (by
      intro l hl
      simp only [List.mem_cons, List.mem_singleton, List.not_mem_nil, or_false] at hl
      rcases hl with rfl | rfl
      · exact lineA_noNul _
      · exact lineB_noNul)]
  refine ⟨_, rfl, ?_, ?_⟩
  · simp [expected, lineA_res_3000, lineB_res]
  · simp only [expected, lineA_res_3000, lineB_res, List.getElem?_cons_zero, ne_eq,
      Option.some.injEq]
    intro h
    have := congrArg List.length h
    simp [take_length, lineA_len_3000] at this

/-- C7: in a download that passes the argument checks, when opening the
destination file fails the call ends in the file-open error carrying the reason,
and no transfer, busy notification or "trying URL" notice is performed. -/
theorem download_open_failure (host : Host) (args : List SEXP) (reason : String)
    (hvalid : ∀ name, (do_curlDownload host args).2 ≠ .error (.invalidArgument name))
    (hopen : host.R_fopen
        (host.R_ExpandFileName (host.translateChar ((argDestfile args).STRING_ELT 0)))
        ((argMode args).STRING_ELT 0) = .error reason) :
    (do_curlDownload host args).2
        = .error (.cannotOpenDestfile (host.translateChar ((argDestfile args).STRING_ELT 0)) reason)
      ∧ Event.curl_easy_perform ∉ (do_curlDownload host args).1
      ∧ (∀ which, Event.R_Busy which ∉ (do_curlDownload host args).1)
      ∧ (∀ msg, Event.REprintf msg ∉ (do_curlDownload host args).1) := by
  rw [do_curlDownload_of_valid host args hvalid]
  exact downloadTransfer_open_failure _ _ _ _ _ _ _ _ _ (warningsOf_warning args) hopen

/-- C7 at a concrete download whose destination cannot be opened. -/
theorem download_open_failure_witness :
    (do_curlDownload (hostNoOpen "Permission denied") (downloadArgs 0 0)).2
        = .error (.cannotOpenDestfile "/tmp/out.bin" "Permission denied")
      ∧ Event.curl_easy_perform ∉ (do_curlDownload (hostNoOpen "Permission denied")
          (downloadArgs 0 0)).1
      ∧ (∀ which, Event.R_Busy which ∉ (do_curlDownload (hostNoOpen "Permission denied")
          (downloadArgs 0 0)).1)
      ∧ (∀ msg, Event.REprintf msg ∉ (do_curlDownload (hostNoOpen "Permission denied")
          (downloadArgs 0 0)).1) :=
  download_open_failure (hostNoOpen "Permission denied") (downloadArgs 0 0) "Permission denied"
    (fun name h => by
      rw [show (do_curlDownload (hostNoOpen "Permission denied") (downloadArgs 0 0)).2
        = .error (.cannotOpenDestfile "/tmp/out.bin" "Permission denied") from rfl] at h
      cases h)
    rfl

/-- C8 as stated fails: with a two-valued `mode` and an `NA` `cacheOK` the download
ends in the error for `mode`, while the stated order of checks (cacheOK before
mode) gives the error for `cacheOK`. -/
theorem download_mode_checked_before_cacheOK :
    (do_curlDownload (hostReturning 0) badModeNaCache).2 = .error (.invalidArgument "mode")
      ∧ claimedInvalid badModeNaCache = some "cacheOK"
      ∧ ¬ (∀ name, (do_curlDownload (hostReturning 0) badModeNaCache).2
            = .error (.invalidArgument name) ↔ claimedInvalid badModeNaCache = some name) := by
  refine ⟨rfl, rfl, fun h => ?_⟩
  have := (h "mode").mp rfl
  rw [show claimedInvalid badModeNaCache = some "cacheOK" from rfl] at this
  exact absurd this (by decide)

/-- C8 amended: a download ends in an invalid-argument error exactly when one of
the five checks fails, and the error names the first failing check in the order
url, destfile, quiet, mode, cacheOK.  A `url` (or, once `url` passed, a
`destfile`) of more than one value is not rejected: a warning is emitted, and
when all checks pass the first value is the one set as the URL (opened as the
destination). -/
theorem download_argument_checks (host : Host) (args : List SEXP) :
    (∀ name, (do_curlDownload host args).2 = .error (.invalidArgument name)
        ↔ firstInvalid args = some name)
      ∧ ((argUrl args).isString = true → 1 < (argUrl args).length →
          Event.warning "only first element of 'url' argument used"
              ∈ (do_curlDownload host args).1
            ∧ (do_curlDownload host args).2 ≠ .error (.invalidArgument "url"))
      ∧ ((argUrl args).isString = true → 1 ≤ (argUrl args).length →
          (argDestfile args).isString = true → 1 < (argDestfile args).length →
          Event.warning "only first element of 'destfile' argument used"
              ∈ (do_curlDownload host args).1
            ∧ (do_curlDownload host args).2 ≠ .error (.invalidArgument "destfile"))
      ∧ (firstInvalid args = none →
          Event.curl_easy_setopt (.URL ((argUrl args).STRING_ELT 0))
              ∈ (do_curlDownload host args).1
            ∧ Event.R_fopen
                (host.R_ExpandFileName (host.translateChar ((argDestfile args).STRING_ELT 0)))
                ((argMode args).STRING_ELT 0) ∈ (do_curlDownload host args).1) := by
  have hiff : ∀ name, (do_curlDownload host args).2 = .error (.invalidArgument name)
      ↔ firstInvalid args = some name := by
    intro name
    rcases do_curlDownload_cases host args with ⟨n, hn, h⟩ | ⟨hn, h⟩
    · rw [h, hn]; simp
    · rw [h, hn]
      simp only [reduceCtorEq, iff_false]
      exact downloadTransfer_not_invalid _ _ _ _ _ _ _ _ _
  refine ⟨hiff, ?_, ?_, ?_⟩
  · intro hs hl
    refine ⟨?_, ?_⟩
    · unfold argUrl at hs hl
      unfold do_curlDownload
      dsimp only
      rw [if_neg (by simp [hs]; omega), if_pos hl]
      split_ifs <;>
        first | exact mem_downloadTransfer_of_mem _ _ _ _ _ _ _ _ _ (by simp) | simp
    · rw [Ne, hiff]
      unfold firstInvalid
      rw [if_neg (by simp [hs]; omega)]
      split_ifs <;> simp
  · intro hs hl hs2 hl2
    refine ⟨?_, ?_⟩
    · unfold argUrl at hs hl
      unfold argDestfile at hs2 hl2
      unfold do_curlDownload
      dsimp only
      rw [if_neg (by simp [hs]; omega), if_neg (by simp [hs2]; omega), if_pos hl2]
      split_ifs <;>
        first | exact mem_downloadTransfer_of_mem _ _ _ _ _ _ _ _ _ (by simp) | simp
    · rw [Ne, hiff]
      unfold firstInvalid
      rw [if_neg (by simp [hs]; omega), if_neg (by simp [hs2]; omega)]
      split_ifs <;> simp
  · intro hn
    rcases do_curlDownload_cases host args with ⟨n, hn2, _⟩ | ⟨_, h⟩
    · rw [hn] at hn2; cases hn2
    · rw [h]
      exact downloadTransfer_uses_first _ _ _ _ _ _ _ _

/-- C8 amended, at a download with two values for `url` and two for `destfile`:
both warnings are emitted, the call succeeds, the first URL is set and the
first destination opened. -/
theorem download_argument_checks_witness :
    firstInvalid multiArgs = none
      ∧ (do_curlDownload (hostReturning 0) multiArgs).2 = .ok 0
      ∧ Event.warning "only first element of 'url' argument used"
          ∈ (do_curlDownload (hostReturning 0) multiArgs).1
      ∧ Event.warning "only first element of 'destfile' argument used"
          ∈ (do_curlDownload (hostReturning 0) multiArgs).1
      ∧ Event.curl_easy_setopt (.URL "http://example.test/a")
          ∈ (do_curlDownload (hostReturning 0) multiArgs).1
      ∧ Event.R_fopen "/tmp/a" "wb" ∈ (do_curlDownload (hostReturning 0) multiArgs).1 := by
  have h := download_argument_checks (hostReturning 0) multiArgs
  exact ⟨rfl, rfl, (h.2.1 rfl (by decide)).1, (h.2.2.1 rfl (by decide) rfl (by decide)).1,
    (h.2.2.2 rfl).1, (h.2.2.2 rfl).2⟩

/-- C9, on the failing path: in a download that passes the argument checks with
`cacheOK` false, whose destination opens and whose transfer returns a failure
code, the header list is appended, the transfer is performed, the call ends in
the transfer error, and `curl_slist_free_all` is not performed: `error(...)`
leaves the function before the release on line 190. -/
theorem download_failed_transfer_keeps_slist (host : Host) (args : List SEXP) (out : Nat)
    (hvalid : ∀ name, (do_curlDownload host args).2 ≠ .error (.invalidArgument name))
    (hcache : argCacheOK args = 0)
    (hopen : host.R_fopen
        (host.R_ExpandFileName (host.translateChar ((argDestfile args).STRING_ELT 0)))
        ((argMode args).STRING_ELT 0) = .ok out)
    (hfail : ∀ opts, (host.curl_easy_perform opts).ret ≠ 0) :
    Event.curl_slist_append "Pragma: no-cache" ∈ (do_curlDownload host args).1
      ∧ Event.curl_easy_perform ∈ (do_curlDownload host args).1
      ∧ (∃ ret, ret ≠ 0 ∧ (do_curlDownload host args).2
          = .error (.libcurlError (host.curl_easy_strerror ret)))
      ∧ Event.curl_slist_free_all ∉ (do_curlDownload host args).1 := by
  rw [do_curlDownload_of_valid host args hvalid]
  have h := downloadTransfer_failed_transfer host (warningsOf args) ((argUrl args).STRING_ELT 0)
    (host.translateChar ((argDestfile args).STRING_ELT 0)) ((argMode args).STRING_ELT 0)
    (argQuiet args) (argCacheOK args) (CDR (CDR (CDR (CDR args)))) out
    (warningsOf_warning args) hopen hfail
  refine ⟨?_, h.2.1, h.1, h.2.2⟩
  unfold transferOf
  rw [mem_downloadTransfer_slist_append _ _ _ _ _ _ _ _ _ (warningsOf_warning args)]
  exact ⟨hcache, rfl⟩

/-- C9 at a concrete failing download: `cacheOK = FALSE`, the destination opens,
and the transfer returns code 6 (host not resolved). -/
theorem download_failed_transfer_witness :
    Event.curl_slist_append "Pragma: no-cache"
        ∈ (do_curlDownload (hostReturning 6) (downloadArgs 1 0)).1
      ∧ Event.curl_easy_perform ∈ (do_curlDownload (hostReturning 6) (downloadArgs 1 0)).1
      ∧ (∃ ret, ret ≠ 0 ∧ (do_curlDownload (hostReturning 6) (downloadArgs 1 0)).2
          = .error (.libcurlError ((hostReturning 6).curl_easy_strerror ret)))
      ∧ Event.curl_slist_free_all ∉ (do_curlDownload (hostReturning 6) (downloadArgs 1 0)).1 :=
  download_failed_transfer_keeps_slist (hostReturning 6) (downloadArgs 1 0) 3
    (fun name h => by
      rw [show (do_curlDownload (hostReturning 6) (downloadArgs 1 0)).2
        = .error (.libcurlError "Couldn't resolve host name") from rfl] at h
      cases h)
    rfl rfl (fun _ => (by decide : (6 : Nat) ≠ 0))

end Libcurl
